import Mathlib

/-!
# Verification of the Teams OBO bot token/context/scheduler core

Shallow embedding, translated from the JavaScript sources:

* `src/unnamed/part_001` — the enhanced `TeamsBot` (in-memory `userContextMap`,
  `storeUserContext`, `getTokenForUser`, `getUserContext`);
* `src/unnamed/part_000` — `ContextStorage` (MongoDB-backed `storeUserContext`);
* `src/bots/teamsBot.js` — the background-task scheduler
  (`scheduleBackgroundTask`, `runBackgroundTasks`);
* `src/index.js` — the `POST /api/tokens/batch` and
  `GET /api/user/:userId/context` handlers.

Modelling conventions:

* JavaScript `Map` objects (and Mongo collections with a unique index on
  `userId`) are association lists with `Map.set` replace-in-place-or-append
  semantics (`mapSet`), matching JS insertion-order iteration.
* Timestamps (`new Date()`, `Date.now()`) are `Nat` milliseconds, passed in
  as a `now` parameter.
* A call into the Bot Framework runtime either returns a value or throws;
  this is `JsCall`.  A possibly-`undefined` token response is
  `Option TokenResponse`, and the JS truthiness test `tokenResponse?.token`
  is `token ≠ ""` on a present response.
* The capability probes of `getTokenForUser` (`turnState`,
  `adapter.UserTokenClientKey`, `adapter.getUserToken`,
  `adapter.createConnectorClient`, `connectorClient.userToken`) become
  Boolean fields of `ProactiveEnv`, and the outcome of each runtime call is
  an env field, so the broker is a pure function of the environment.
* `adapter.continueConversationAsync` failing (`sessionOpenOk = false`)
  means the callback never runs and the promise wrapping it is never
  resolved; the broker then yields `none` (no structured result is ever
  produced — the JS promise hangs or rejects, it does not resolve).
* The diagnostic `details` payload attached to the generic error result is
  logging-only and is not modelled.
-/

namespace OboBot

/-- Outcome of a call into the JS runtime: a returned value or a thrown
error carrying its message. -/
inductive JsCall (α : Type) where
  | ret (v : α)
  | thr (msg : String)
deriving DecidableEq

/-- Conversation reference captured by
`TurnContext.getConversationReference(activity)`: the routing data needed to
reopen the channel. -/
structure ConvRef where
  channelId : String
  serviceUrl : String
  conversationId : String
deriving DecidableEq

/-- Model of `Map.get`: first binding of the key in the association list. -/
def mapGet {α : Type} : List (String × α) → String → Option α
  | [], _ => none
  | (k2, v) :: rest, k => if k2 = k then some v else mapGet rest k

/-- Model of `Map.set`: replace the binding in place if the key is present
(keeping its position, as a JS `Map` does), else append at the end. -/
def mapSet {α : Type} : List (String × α) → String → α → List (String × α)
  | [], k, v => [(k, v)]
  | (k2, v2) :: rest, k, v =>
    if k2 = k then (k, v) :: rest else (k2, v2) :: mapSet rest k v

/-- The per-user context record built by `storeUserContext` in
`src/unnamed/part_001` (fields in source order), together with the
token-metadata fields that `getTokenForUser` later attaches
(`tokenStatus`, `lastTokenRetrieved`, `lastTokenAttempt`; `none` models the
property being absent/undefined). -/
structure UserContext where
  userId : String
  conversationReference : Option ConvRef
  userName : String
  channelId : String
  serviceUrl : String
  tenantId : Option String
  conversationId : String
  aadObjectId : Option String
  ssoEnabled : Bool
  lastUpdated : Nat
  createdAt : Nat
  tokenStatus : Option String
  lastTokenRetrieved : Option Nat
  lastTokenAttempt : Option Nat
deriving DecidableEq

/-- The user-context map of the bot (`this.userContextMap`). -/
abbrev CtxMap : Type := List (String × UserContext)

/-- A token response object returned by one of the token-acquisition
calls; the JS truthiness test on `.token` is `token ≠ ""`. -/
structure TokenResponse where
  token : String
  expiration : String
  connectionName : String
  channelId : String
deriving DecidableEq

/-- The resolved value of `getTokenForUser`: either the success object
`{success: true, token, expiration, connectionName, channelId}` or a failure
object `{success: false, error, message}`. -/
inductive TokenResult where
  | success (token expiration connectionName channelId : String)
  | failure (error message : String)
deriving DecidableEq

/-- Runtime environment seen inside the proactive conversation callback of
`getTokenForUser`: capability probes and the outcome of every runtime call
the function can make. -/
structure ProactiveEnv where
  /-- Whether `adapter.continueConversationAsync` succeeds in opening the session
  and runs the callback. -/
  sessionOpenOk : Bool
  /-- Whether `proactiveContext.turnState` is truthy. -/
  hasTurnState : Bool
  /-- Whether `proactiveContext.adapter.UserTokenClientKey` is truthy. -/
  hasUserTokenClientKey : Bool
  /-- Whether `turnState.get(UserTokenClientKey)` returns a (truthy) client. -/
  turnStateClient : Bool
  /-- Whether `proactiveContext.adapter.getUserToken` exists. -/
  hasGetUserToken : Bool
  /-- Whether `proactiveContext.adapter.createConnectorClient` exists. -/
  hasCreateConnectorClient : Bool
  /-- Whether `connectorClient.userToken` is truthy. -/
  connectorHasUserToken : Bool
  /-- Outcome of `adapter.signOutUser(...)` (method 1 force-refresh). -/
  adapterSignOut : JsCall Unit
  /-- Outcome of `adapter.getUserToken(...)` (method 1). -/
  adapterGetToken : JsCall (Option TokenResponse)
  /-- Outcome of `userTokenClient.signOutUser(...)` (method 2 force-refresh). -/
  utcSignOut : JsCall Unit
  /-- Outcome of `userTokenClient.getUserToken(...)` (method 2). -/
  utcGetToken : JsCall (Option TokenResponse)
  /-- Outcome of `adapter.createConnectorClient(serviceUrl)` (method 3). -/
  createConnector : JsCall Unit
  /-- Outcome of `connectorClient.userToken.getToken(...)` (method 3). -/
  connectorGetToken : JsCall (Option TokenResponse)
  /-- Value of `process.env.connectionName` (used in the method-3 success object). -/
  procConnectionName : String

/-- The `userTokenClient` local of `getTokenForUser` is non-null: the
turn state and the adapter key exist and the lookup returned a client. -/
def hasUserTokenClient (env : ProactiveEnv) : Bool :=
  env.hasTurnState && env.hasUserTokenClientKey && env.turnStateClient

/-- Context update on a successful token retrieval:
`lastTokenRetrieved = new Date(); tokenStatus = 'active'`. -/
def ucActive (uc : UserContext) (now : Nat) : UserContext :=
  { uc with lastTokenRetrieved := some now, tokenStatus := some "active" }

/-- Context update when no strategy yielded a token:
`tokenStatus = 'unavailable'; lastTokenAttempt = new Date()`. -/
def ucUnavailable (uc : UserContext) (now : Nat) : UserContext :=
  { uc with tokenStatus := some "unavailable", lastTokenAttempt := some now }

/-- The fall-through tail of the callback: no token was available.  Returns
the resolved value and the updated context to be written back. -/
def unavailableResult (uc : UserContext) (now : Nat) :
    TokenResult × Option UserContext :=
  (.failure "Token not available" "User needs to authenticate first",
    some (ucUnavailable uc now))

/-- Method 3 of `getTokenForUser`: the connector/OAuth client fallback,
guarded by `!userTokenClient && adapter.createConnectorClient`; every error
inside it is caught by the inner `catch (oauthError)` and falls through. -/
def method3 (env : ProactiveEnv) (uc : UserContext) (now : Nat) :
    TokenResult × Option UserContext :=
  if !(hasUserTokenClient env) && env.hasCreateConnectorClient then
    match env.createConnector with
    | .thr _ => unavailableResult uc now
    | .ret _ =>
      if env.connectorHasUserToken then
        match env.connectorGetToken with
        | .thr _ => unavailableResult uc now
        | .ret none => unavailableResult uc now
        | .ret (some tr) =>
          if tr.token = "" then unavailableResult uc now
          else
            (.success tr.token tr.expiration env.procConnectionName uc.channelId,
              some (ucActive uc now))
      else unavailableResult uc now
  else unavailableResult uc now

/-- The `userTokenClient.getUserToken` call of method 2 and the fall-through
after it.  A thrown error reaches the outer `catch`, which resolves the
generic failure without writing the context back. -/
def method2GetToken (env : ProactiveEnv) (uc : UserContext) (now : Nat) :
    TokenResult × Option UserContext :=
  match env.utcGetToken with
  | .thr m => (.failure "Token retrieval failed" m, none)
  | .ret none => method3 env uc now
  | .ret (some tr) =>
    if tr.token = "" then method3 env uc now
    else
      (.success tr.token tr.expiration tr.connectionName tr.channelId,
        some (ucActive uc now))

/-- Method 2 of `getTokenForUser`: the `UserTokenClient` path, guarded by
`if (userTokenClient)`.  The force-refresh `signOutUser` call here is NOT
wrapped in a `try`/`catch` of its own, so a thrown sign-out error reaches
the outer `catch` and resolves the generic failure. -/
def method2 (env : ProactiveEnv) (uc : UserContext) (forceRefresh : Bool)
    (now : Nat) : TokenResult × Option UserContext :=
  if hasUserTokenClient env then
    if forceRefresh then
      match env.utcSignOut with
      | .thr m => (.failure "Token retrieval failed" m, none)
      | .ret _ => method2GetToken env uc now
    else method2GetToken env uc now
  else method3 env uc now

/-- Body of the proactive callback of `getTokenForUser`: method 1 (the
adapter-level getter, guarded by `!userTokenClient && adapter.getUserToken`;
its force-refresh sign-out is wrapped in a `try`/`catch` whose outcome is
discarded), then methods 2 and 3.  Returns the resolved `TokenResult` and
the context written back by `userContextMap.set` (`none` when the generic
error path resolves without writing). -/
def runStrategies (env : ProactiveEnv) (uc : UserContext) (forceRefresh : Bool)
    (now : Nat) : TokenResult × Option UserContext :=
  if !(hasUserTokenClient env) && env.hasGetUserToken then
    match env.adapterGetToken with
    | .thr m => (.failure "Token retrieval failed" m, none)
    | .ret none => method2 env uc forceRefresh now
    | .ret (some tr) =>
      if tr.token = "" then method2 env uc forceRefresh now
      else
        (.success tr.token tr.expiration tr.connectionName tr.channelId,
          some (ucActive uc now))
  else method2 env uc forceRefresh now

/-- Model of `getTokenForUser(userId, forceRefresh)` of `src/unnamed/part_001`:
look up the stored context; with no context or no conversation reference
return the no-context failure at once; otherwise run the strategies inside
`continueConversationAsync`.  The result is the resolved value (`none`
when the session open fails and the promise never resolves) together with
the user-context map after the call. -/
def getTokenForUser (env : ProactiveEnv) (st : CtxMap) (userId : String)
    (forceRefresh : Bool) (now : Nat) : Option TokenResult × CtxMap :=
  match mapGet st userId with
  | none =>
    (some (.failure "No conversation context found"
        "User needs to interact with the bot first"), st)
  | some uc =>
    match uc.conversationReference with
    | none =>
      (some (.failure "No conversation context found"
          "User needs to interact with the bot first"), st)
    | some _ =>
      if env.sessionOpenOk then
        match runStrategies env uc forceRefresh now with
        | (r, some uc2) => (some r, mapSet st userId uc2)
        | (r, none) => (some r, st)
      else (none, st)

/-! ## Context storage (in-memory), `src/unnamed/part_001` -/

/-- The fields of an inbound activity that `storeUserContext` reads.
`none` models an absent/falsy JS value (so `fromName = none` covers both a
missing `from.name` and the empty string, which `|| 'Unknown'` replaces). -/
structure Activity where
  fromId : Option String
  fromName : Option String
  channelId : String
  serviceUrl : String
  tenantId : Option String
  conversationId : String
  aadObjectId : Option String
deriving DecidableEq

/-- Model of `TurnContext.getConversationReference(activity)`: captures the routing
data of the activity. -/
def getConversationReference (a : Activity) : ConvRef :=
  { channelId := a.channelId, serviceUrl := a.serviceUrl,
    conversationId := a.conversationId }

/-- Model of `storeUserContext(context)` of `src/unnamed/part_001`: no-op when
`context.activity.from.id` is missing; otherwise build a fresh context
object (`createdAt` kept from an existing entry, else `new Date()`;
`lastUpdated = new Date()`; no token-metadata properties) and `Map.set` it. -/
def storeUserContext (st : CtxMap) (a : Activity) (now : Nat) : CtxMap :=
  match a.fromId with
  | none => st
  | some uid =>
    mapSet st uid
      { userId := uid
        conversationReference := some (getConversationReference a)
        userName := a.fromName.getD "Unknown"
        channelId := a.channelId
        serviceUrl := a.serviceUrl
        tenantId := a.tenantId
        conversationId := a.conversationId
        aadObjectId := a.aadObjectId
        ssoEnabled := true
        lastUpdated := now
        createdAt :=
          match mapGet st uid with
          | some old => old.createdAt
          | none => now
        tokenStatus := none
        lastTokenRetrieved := none
        lastTokenAttempt := none }

/-- Folding a sequence of inbound turns through `storeUserContext`. -/
def storeSeq (st : CtxMap) (calls : List (Activity × Nat)) : CtxMap :=
  calls.foldl (fun s c => storeUserContext s c.1 c.2) st

/-! ## Sanitized context lookup, `src/unnamed/part_001` and `src/index.js` -/

/-- JS `s || dflt` on an optional string: the default replaces an absent or
empty (falsy) value. -/
def jsOrStr (s : Option String) (dflt : String) : String :=
  match s with
  | none => dflt
  | some v => if v = "" then dflt else v

/-- The sanitized projection returned by `getUserContext`: no
`conversationReference` field (only the Boolean
`hasConversationReference`) and no token material. -/
structure SanitizedContext where
  userId : String
  userName : String
  channelId : String
  tenantId : Option String
  conversationId : String
  lastUpdated : Nat
  createdAt : Nat
  hasConversationReference : Bool
  ssoEnabled : Bool
  tokenStatus : String
  lastTokenRetrieved : Option Nat
  lastTokenAttempt : Option Nat
deriving DecidableEq

/-- The object literal built by `getUserContext` from a stored context:
`hasConversationReference: !!context.conversationReference`,
`tokenStatus: context.tokenStatus || 'unknown'`. -/
def sanitizeContext (c : UserContext) : SanitizedContext :=
  { userId := c.userId
    userName := c.userName
    channelId := c.channelId
    tenantId := c.tenantId
    conversationId := c.conversationId
    lastUpdated := c.lastUpdated
    createdAt := c.createdAt
    hasConversationReference := c.conversationReference.isSome
    ssoEnabled := c.ssoEnabled
    tokenStatus := jsOrStr c.tokenStatus "unknown"
    lastTokenRetrieved := c.lastTokenRetrieved
    lastTokenAttempt := c.lastTokenAttempt }

/-- Model of `getUserContext(userId)` of `src/unnamed/part_001`: `null` when no
context is stored, else the sanitized projection. -/
def getUserContext (st : CtxMap) (u : String) : Option SanitizedContext :=
  (mapGet st u).map sanitizeContext

/-- The `GET /api/user/:userId/context` handler of `src/index.js`:
400 on a falsy userId, 404 when `getUserContext` returns null, otherwise
200 with the sanitized context.  Modelled as status code plus payload. -/
def contextEndpoint (st : CtxMap) (u : String) :
    Nat × Option SanitizedContext :=
  if u = "" then (400, none)
  else
    match getUserContext st u with
    | some c => (200, some c)
    | none => (404, none)

/-! ## Background scheduler, `src/bots/teamsBot.js` -/

/-- A scheduled background task as stored in `this.backgroundTasks`. -/
structure BgTask where
  userId : String
  conversationRef : ConvRef
  executeAt : Nat
  taskType : String
deriving DecidableEq

/-- Decimal digit list of `n`, most significant first, as JS renders a
number into a template string (`String(0) = "0"`). -/
def natChars (n : Nat) : List Char :=
  if n = 0 then ['0'] else ((Nat.digits 10 n).map Nat.digitChar).reverse

/-- Decimal rendering of a `Nat`, the model of `${Date.now()}`. -/
def natStr (n : Nat) : String :=
  String.mk (natChars n)

/-- The task identifier of `scheduleBackgroundTask`:
`` `${userId}_${Date.now()}` ``. -/
def mkTaskId (userId : String) (now : Nat) : String :=
  userId ++ "_" ++ natStr now

/-- The pending-task map `this.backgroundTasks`. -/
abbrev TaskMap : Type := List (String × BgTask)

/-- Model of `scheduleBackgroundTask(userId, conversationRef, delayMs)`:
inserts a `calendarCheck` task keyed by the generated id with
`executeAt = Date.now() + delayMs`. -/
def scheduleBackgroundTask (tasks : TaskMap) (userId : String)
    (conversationRef : ConvRef) (now delayMs : Nat) : TaskMap :=
  mapSet tasks (mkTaskId userId now)
    { userId := userId, conversationRef := conversationRef,
      executeAt := now + delayMs, taskType := "calendarCheck" }

/-- Model of `runBackgroundTasks()` of `src/bots/teamsBot.js`: one pass over the
map collects every due task (`executeAt <= now`) and deletes it from the
map, then each collected task is executed in order, each execution wrapped
in its own `try`/`catch` (a failure is logged and the loop continues; the
map is never touched during execution).  `exec` gives the outcome of
`executeBackgroundTask` for each task id.  Returns the remaining pending
map and the list of (task id, execution outcome) pairs. -/
def runBackgroundTasks (now : Nat) (tasks : TaskMap)
    (exec : String → JsCall Unit) : TaskMap × List (String × JsCall Unit) :=
  (tasks.filter fun p => !(decide (p.2.executeAt ≤ now)),
    (tasks.filter fun p => decide (p.2.executeAt ≤ now)).map
      fun p => (p.1, exec p.1))

/-! ## MongoDB context storage, `src/unnamed/part_000` -/

/-- A document field value. -/
inductive BVal where
  | vStr (s : String)
  | vNat (n : Nat)
  | vRef (r : ConvRef)
  | vBool (b : Bool)
deriving DecidableEq

/-- A document / JS object: ordered field map with unique keys; field
writes use `mapSet` (overwrite in place, else append), matching JS
object-literal spread and Mongo `$set` semantics. -/
abbrev Doc : Type := List (String × BVal)

/-- Apply a list of field writes in order (JS object spread of
`additionalData`, and `$set` of a whole object). -/
def objMergeList (d : Doc) (fields : List (String × BVal)) : Doc :=
  fields.foldl (fun acc kv => mapSet acc kv.1 kv.2) d

/-- The `contextData` object literal of `ContextStorage.storeUserContext`:
`{ userId, conversationReference, ...additionalData, lastUpdated: now }`
(keys in that order, later keys overwriting earlier ones). -/
def contextData (userId : String) (ref : ConvRef)
    (additionalData : List (String × BVal)) (now : Nat) : Doc :=
  mapSet
    (objMergeList
      (mapSet (mapSet [] "userId" (.vStr userId))
        "conversationReference" (.vRef ref))
      additionalData)
    "lastUpdated" (.vNat now)

/-- A Mongo collection with a unique index on `userId`: keyed map from
userId to document. -/
abbrev Coll : Type := List (String × Doc)

/-- Model of `ContextStorage.storeUserContext(userId, conversationReference,
additionalData)` of `src/unnamed/part_000`: if a document exists, update it
with `$set: contextData` (no `createdAt` in `contextData`); else insert
`contextData` with `createdAt = now` added. -/
def mongoStoreUserContext (coll : Coll) (userId : String) (ref : ConvRef)
    (additionalData : List (String × BVal)) (now : Nat) : Coll :=
  match mapGet coll userId with
  | some existing =>
    mapSet coll userId
      (objMergeList existing (contextData userId ref additionalData now))
  | none =>
    mapSet coll userId
      (mapSet (contextData userId ref additionalData now)
        "createdAt" (.vNat now))

/-- Folding a sequence of store calls through the Mongo-backed store. -/
def mongoStoreSeq (coll : Coll) (userId : String)
    (calls : List (ConvRef × List (String × BVal) × Nat)) : Coll :=
  calls.foldl
    (fun c call => mongoStoreUserContext c userId call.1 call.2.1 call.2.2)
    coll

/-! ## Batch token endpoint, `src/index.js` -/

/-- A settled outcome of a per-user acquisition promise: fulfilled with a
`TokenResult` or rejected with a reason.  A promise need not settle at
all — `getTokenForUser` resolves nothing when the session open fails — so
the handler receives each per-user outcome as an `Option Settled`, with
`none` for a promise that never settles. -/
inductive Settled where
  | fulfilled (v : TokenResult)
  | rejected (msg : String)
deriving DecidableEq

/-- An element of the `results` array built by the batch handler. -/
structure BatchEntry where
  userId : String
  success : Bool
  token : Option String
  error : Option String
  message : Option String
deriving DecidableEq

/-- The HTTP response of the batch handler: a 400 rejection or the 200
payload `{success, totalRequested, successCount, failureCount, results}`. -/
inductive BatchResponse where
  | badRequest (error : String)
  | ok (success : Bool) (totalRequested successCount failureCount : Nat)
      (results : List BatchEntry)
deriving DecidableEq

/-- One entry of `tokenResults`: `success` iff fulfilled with a success
value; `token` only then; `error`/`message` from the settled value
(`undefined` fields of a success value are `none`; a rejection reports its
reason and the fixed message). -/
def mkBatchEntry (u : String) (s : Settled) : BatchEntry :=
  match s with
  | .fulfilled (.success t _ _ _) =>
    { userId := u, success := true, token := some t,
      error := none, message := none }
  | .fulfilled (.failure e m) =>
    { userId := u, success := false, token := none,
      error := some e, message := some m }
  | .rejected m =>
    { userId := u, success := false, token := none,
      error := some m, message := some "Request failed" }

/-- Model of `Promise.allSettled` over the per-user acquisition promises:
it resolves — with every userId paired with its settled outcome, in input
order — exactly when every per-user promise settles; if any promise never
settles, `allSettled` never resolves (`none`). -/
def settleAll : List String → (String → Option Settled) →
    Option (List (String × Settled))
  | [], _ => some []
  | u :: rest, f =>
    match f u, settleAll rest f with
    | some s, some l => some ((u, s) :: l)
    | _, _ => none

/-- The `POST /api/tokens/batch` handler of `src/index.js`: reject a
non-array or empty `userIds` and more than 50 entries with 400 (before any
acquisition is started); otherwise await `Promise.allSettled` over the
per-user acquisitions (`f` gives each userId's promise outcome, `none`
when that promise never settles) and report `successCount` and
`failureCount = N - successCount`.  The handler's own result is `none`
when `allSettled` never resolves: then no response is ever sent. -/
def batchHandler (body : Option (List String))
    (f : String → Option Settled) : Option BatchResponse :=
  match body with
  | none => some (.badRequest "userIds array is required")
  | some ids =>
    if ids.length = 0 then some (.badRequest "userIds array is required")
    else if 50 < ids.length then
      some (.badRequest "Maximum 50 users per batch request")
    else
      match settleAll ids f with
      | none => none
      | some settled =>
        some (.ok
          (0 < ((settled.map fun p => mkBatchEntry p.1 p.2).filter
            fun e => e.success).length)
          ids.length
          ((settled.map fun p => mkBatchEntry p.1 p.2).filter
            fun e => e.success).length
          (ids.length - ((settled.map fun p => mkBatchEntry p.1 p.2).filter
            fun e => e.success).length)
          (settled.map fun p => mkBatchEntry p.1 p.2))

/-- The settled outcome of one `bot.getTokenForUser(userId)` promise as
the batch handler's `Promise.allSettled` sees it: the broker resolves (it
never rejects once invoked), so a resolved value becomes a fulfilled
outcome, and a broker call that resolves nothing — the session-open hang —
is a promise that never settles. -/
def acquireSettled (env : ProactiveEnv) (st : CtxMap) (now : Nat)
    (u : String) : Option Settled :=
  ((getTokenForUser env st u false now).1).map Settled.fulfilled

/-- The `results` array of a batch response (empty for a 400). -/
def batchResults (r : BatchResponse) : List BatchEntry :=
  match r with
  | .badRequest _ => []
  | .ok _ _ _ _ results => results

/-- The `successCount` of a batch response (0 for a 400). -/
def batchSuccessCount (r : BatchResponse) : Nat :=
  match r with
  | .badRequest _ => 0
  | .ok _ _ sc _ _ => sc

/-- The `failureCount` of a batch response (0 for a 400). -/
def batchFailureCount (r : BatchResponse) : Nat :=
  match r with
  | .badRequest _ => 0
  | .ok _ _ _ fc _ => fc

/-! ## Association-map lemmas -/

theorem mapGet_mapSet_self {α : Type} :
    ∀ (m : List (String × α)) (k : String) (v : α),
      mapGet (mapSet m k v) k = some v
  | [], k, v => by simp [mapGet, mapSet]
  | (k2, v2) :: rest, k, v => by
    by_cases h : k2 = k
    · simp [mapSet, h, mapGet]
    · simp [mapSet, h, mapGet, mapGet_mapSet_self rest k v]

theorem mapGet_mapSet_ne {α : Type} :
    ∀ (m : List (String × α)) (k k3 : String) (v : α), k3 ≠ k →
      mapGet (mapSet m k v) k3 = mapGet m k3
  | [], k, k3, v, hne => by simp [mapGet, mapSet, Ne.symm hne]
  | (k2, v2) :: rest, k, k3, v, hne => by
    by_cases h : k2 = k
    · simp [mapSet, h, mapGet, Ne.symm hne]
    · by_cases h3 : k2 = k3
      · simp [mapSet, h, mapGet, h3, hne]
      · simp [mapSet, h, mapGet, h3, mapGet_mapSet_ne rest k k3 v hne]

theorem mapGet_eq_none_iff {α : Type} :
    ∀ (m : List (String × α)) (k : String),
      mapGet m k = none ↔ k ∉ m.map Prod.fst
  | [], k => by simp [mapGet]
  | (k2, v2) :: rest, k => by
    by_cases h : k2 = k
    · simp [mapGet, h]
    · simp [mapGet, h, mapGet_eq_none_iff rest k, Ne.symm h]

theorem mapSet_keys {α : Type} :
    ∀ (m : List (String × α)) (k : String) (v : α),
      (mapSet m k v).map Prod.fst =
        if k ∈ m.map Prod.fst then m.map Prod.fst
        else m.map Prod.fst ++ [k]
  | [], k, v => by simp [mapSet]
  | (k2, v2) :: rest, k, v => by
    by_cases h : k2 = k
    · simp [mapSet, h]
    · have h2 : ¬k = k2 := fun e => h e.symm
      simp only [mapSet, if_neg h, List.map_cons, mapSet_keys rest k v,
        List.mem_cons, h2, false_or]
      by_cases hm : k ∈ rest.map Prod.fst
      · simp [hm]
      · simp [hm]

theorem nodupKeys_mapSet {α : Type} (m : List (String × α)) (k : String)
    (v : α) (h : (m.map Prod.fst).Nodup) :
    ((mapSet m k v).map Prod.fst).Nodup := by
  rw [mapSet_keys]
  split
  · exact h
  · next hnm => simp [List.nodup_append, h, hnm]

/-! ## Concrete fixtures used by witnesses and counterexamples -/

/-- A concrete conversation reference. -/
def sampleRef : ConvRef :=
  { channelId := "msteams", serviceUrl := "https://smba.example.net/amer/",
    conversationId := "conv1" }

/-- A concrete stored user context with a conversation reference. -/
def sampleCtx : UserContext :=
  { userId := "user1", conversationReference := some sampleRef,
    userName := "Ada", channelId := "msteams",
    serviceUrl := "https://smba.example.net/amer/", tenantId := some "tid",
    conversationId := "conv1", aadObjectId := none, ssoEnabled := true,
    lastUpdated := 1000, createdAt := 900, tokenStatus := none,
    lastTokenRetrieved := none, lastTokenAttempt := none }

/-- A one-user context map. -/
def sampleMap : CtxMap := [("user1", sampleCtx)]

/-- A baseline runtime environment: the session opens, no token capability
is present, every call would return benignly. -/
def baseEnv : ProactiveEnv :=
  { sessionOpenOk := true, hasTurnState := false,
    hasUserTokenClientKey := false, turnStateClient := false,
    hasGetUserToken := false, hasCreateConnectorClient := false,
    connectorHasUserToken := false, adapterSignOut := .ret (),
    adapterGetToken := .ret none, utcSignOut := .ret (),
    utcGetToken := .ret none, createConnector := .ret (),
    connectorGetToken := .ret none, procConnectionName := "GraphConnection" }

/-- A concrete token response. -/
def sampleTr : TokenResponse :=
  { token := "tokA", expiration := "2026-01-01", connectionName := "connA",
    channelId := "chanA" }

/-- A second concrete token response. -/
def sampleTr2 : TokenResponse :=
  { token := "tokB", expiration := "2026-02-02", connectionName := "connB",
    channelId := "chanB" }

/-! ## C3 — no stored context means an immediate no-context failure -/

/-- C3: for a userId with no stored `UserContext`, or one whose stored
context has no `conversationReference`, `getTokenForUser` returns the
no-context failure immediately and leaves the map unchanged, and the call
is independent of the runtime environment, the `forceRefresh` flag and the
clock — so no proactive session is opened and no acquisition strategy or
network call is attempted. -/
theorem claim3_no_context_failure (env env2 : ProactiveEnv) (st : CtxMap)
    (u : String) (fr fr2 : Bool) (now now2 : Nat)
    (h : mapGet st u = none ∨
      ∃ c, mapGet st u = some c ∧ c.conversationReference = none) :
    getTokenForUser env st u fr now =
      (some (.failure "No conversation context found"
        "User needs to interact with the bot first"), st)
    ∧ getTokenForUser env st u fr now = getTokenForUser env2 st u fr2 now2 := by
  rcases h with h | ⟨c, hc, hr⟩
  · simp [getTokenForUser, h]
  · simp [getTokenForUser, hc, hr]

/-- Witness for C3 at a concrete input: an empty store. -/
theorem claim3_no_context_failure_witness :
    getTokenForUser baseEnv [] "nobody" false 5 =
      (some (.failure "No conversation context found"
        "User needs to interact with the bot first"), []) :=
  (claim3_no_context_failure baseEnv baseEnv [] "nobody" false false 5 5
    (Or.inl rfl)).1

/-! ## C6 — session-open failure yields no structured failure result -/

/-- Counterexample to C6: with a stored context whose conversation
reference is present but an environment in which
`continueConversationAsync` fails, `getTokenForUser` produces no resolved
result at all (the wrapping promise is never resolved), rather than the
`Failure("session-open-failed")` result the claim asserts. -/
theorem claim6_counterexample :
    ({ baseEnv with sessionOpenOk := false } : ProactiveEnv).sessionOpenOk
        = false
    ∧ mapGet sampleMap "user1" = some sampleCtx
    ∧ sampleCtx.conversationReference = some sampleRef
    ∧ getTokenForUser { baseEnv with sessionOpenOk := false } sampleMap
        "user1" false 7 = (none, sampleMap) :=
  ⟨rfl, rfl, rfl, rfl⟩

/-- C6 (amended): when the stored context exists and has a conversation
reference but opening the proactive session fails, `getTokenForUser`
resolves no structured result at all (`none`; the JS promise hangs or
rejects) and leaves the map unchanged — no `session-open-failed` failure
value exists anywhere in the code. -/
theorem claim6_session_open_amended (env : ProactiveEnv) (st : CtxMap)
    (u : String) (fr : Bool) (now : Nat) (uc : UserContext) (r : ConvRef)
    (hc : mapGet st u = some uc) (hr : uc.conversationReference = some r)
    (hs : env.sessionOpenOk = false) :
    getTokenForUser env st u fr now = (none, st) := by
  simp [getTokenForUser, hc, hr, hs]

/-- Witness for C6 (amended) at a concrete input. -/
theorem claim6_session_open_amended_witness :
    getTokenForUser { baseEnv with sessionOpenOk := false } sampleMap
      "user1" true 7 = (none, sampleMap) :=
  claim6_session_open_amended { baseEnv with sessionOpenOk := false }
    sampleMap "user1" true 7 sampleCtx sampleRef rfl rfl rfl

/-! ## C2 — force-refresh sign-out failures -/

/-- Environment for the C2 counterexample: the `UserTokenClient` is
present, its `signOutUser` throws, and its `getUserToken` would have
returned a token. -/
def claim2Env : ProactiveEnv :=
  { baseEnv with
    hasTurnState := true,
    hasUserTokenClientKey := true,
    turnStateClient := true,
    utcSignOut := .thr "signout-boom",
    utcGetToken := .ret (some sampleTr) }

/-- Counterexample to C2: on the `UserTokenClient` strategy path the
force-refresh sign-out call is not guarded, so its thrown error alone makes
`acquire(userId, forceRefresh = true)` return the generic failure — even
though `getUserToken` would have yielded a token. -/
theorem claim2_counterexample :
    claim2Env.utcSignOut = .thr "signout-boom"
    ∧ claim2Env.utcGetToken = .ret (some sampleTr)
    ∧ sampleTr.token ≠ ""
    ∧ getTokenForUser claim2Env sampleMap "user1" true 7 =
        (some (.failure "Token retrieval failed" "signout-boom"), sampleMap) :=
  ⟨rfl, rfl, by decide, rfl⟩

/-- C2 (amended): the sign-out failure is ignored only on the adapter-level
getter path — there the `adapter.signOutUser` outcome can never influence
the result of the strategy run — while on the `UserTokenClient` path a
thrown sign-out error aborts the acquisition with the generic
`Failure("Token retrieval failed")` (and no context write-back); the
connector path performs no sign-out at all. -/
theorem claim2_signout_amended :
    (∀ (env : ProactiveEnv) (uc : UserContext) (fr : Bool) (now : Nat)
        (s : JsCall Unit),
      runStrategies { env with adapterSignOut := s } uc fr now =
        runStrategies env uc fr now)
    ∧ (∀ (env : ProactiveEnv) (uc : UserContext) (now : Nat) (m : String),
        hasUserTokenClient env = true → env.utcSignOut = .thr m →
        runStrategies env uc true now =
          (.failure "Token retrieval failed" m, none)) := by
  constructor
  · intro env uc fr now s
    obtain ⟨⟩ := env
    rfl
  · intro env uc now m hu hs
    simp [runStrategies, hu, method2, hs]

/-- Witness for C2 (amended) at concrete inputs. -/
theorem claim2_signout_amended_witness :
    runStrategies { claim2Env with adapterSignOut := .thr "x" } sampleCtx
        true 7 = runStrategies claim2Env sampleCtx true 7
    ∧ runStrategies claim2Env sampleCtx true 7 =
        (.failure "Token retrieval failed" "signout-boom", none) :=
  ⟨claim2_signout_amended.1 claim2Env sampleCtx true 7 (.thr "x"),
    claim2_signout_amended.2 claim2Env sampleCtx 7 "signout-boom" rfl rfl⟩

/-! ## C10 — sanitized context lookup -/

/-- C10: `getUserContext` returns `none` exactly when nothing is stored
(and then the HTTP endpoint answers 404); on a stored context it returns
the sanitized projection, which exposes the conversation reference only
through the Boolean `hasConversationReference` (replacing the reference by
any other reference of the same presence leaves the projection unchanged,
and the projection has no reference or token field at all), and whose
`tokenStatus` defaults to `"unknown"` when no token attempt was ever
recorded; the endpoint then answers 200 with that projection. -/
theorem claim10_sanitized_context (st : CtxMap) (u : String)
    (c : UserContext) (r2 : Option ConvRef) :
    (mapGet st u = none →
      getUserContext st u = none
      ∧ (¬u = "" → contextEndpoint st u = (404, none)))
    ∧ (mapGet st u = some c →
      getUserContext st u = some (sanitizeContext c)
      ∧ (sanitizeContext c).hasConversationReference =
          c.conversationReference.isSome
      ∧ (c.tokenStatus = none → (sanitizeContext c).tokenStatus = "unknown")
      ∧ (r2.isSome = c.conversationReference.isSome →
          sanitizeContext { c with conversationReference := r2 } =
            sanitizeContext c)
      ∧ (¬u = "" →
          contextEndpoint st u = (200, some (sanitizeContext c)))) := by
  constructor
  · intro h
    refine ⟨by simp [getUserContext, h], fun hne => ?_⟩
    simp [contextEndpoint, hne, getUserContext, h]
  · intro h
    refine ⟨by simp [getUserContext, h], rfl, ?_, ?_, ?_⟩
    · intro hts
      simp [sanitizeContext, hts, jsOrStr]
    · intro hiso
      simp [sanitizeContext, hiso]
    · intro hne
      simp [contextEndpoint, hne, getUserContext, h]

/-- Witness for C10 at concrete inputs: a stored and a missing user. -/
theorem claim10_sanitized_context_witness :
    getUserContext sampleMap "user1" = some (sanitizeContext sampleCtx)
    ∧ (sanitizeContext sampleCtx).tokenStatus = "unknown"
    ∧ contextEndpoint sampleMap "user1" =
        (200, some (sanitizeContext sampleCtx))
    ∧ getUserContext sampleMap "ghost" = none
    ∧ contextEndpoint sampleMap "ghost" = (404, none) := by
  have h1 := (claim10_sanitized_context sampleMap "user1" sampleCtx
    (some sampleRef)).2 rfl
  have h2 := (claim10_sanitized_context sampleMap "ghost" sampleCtx
    (some sampleRef)).1 rfl
  exact ⟨h1.1, h1.2.2.1 rfl, h1.2.2.2.2 (by decide), h2.1, h2.2 (by decide)⟩

/-! ## Shape lemmas for the strategy cascade -/

theorem method3_shape (env : ProactiveEnv) (uc : UserContext) (now : Nat) :
    (∃ t e cn ch, method3 env uc now =
      (.success t e cn ch, some (ucActive uc now)))
    ∨ method3 env uc now = unavailableResult uc now := by
  unfold method3
  repeat' split
  all_goals first
    | exact Or.inr rfl
    | exact Or.inl ⟨_, _, _, _, rfl⟩

theorem method2GetToken_shape (env : ProactiveEnv) (uc : UserContext)
    (now : Nat) :
    (∃ t e cn ch, method2GetToken env uc now =
      (.success t e cn ch, some (ucActive uc now)))
    ∨ method2GetToken env uc now = unavailableResult uc now
    ∨ ∃ m, method2GetToken env uc now =
        (.failure "Token retrieval failed" m, none) := by
  have h3 := method3_shape env uc now
  unfold method2GetToken
  split
  · exact Or.inr (Or.inr ⟨_, rfl⟩)
  · exact h3.imp id Or.inl
  · split
    · exact h3.imp id Or.inl
    · exact Or.inl ⟨_, _, _, _, rfl⟩

theorem method2_shape (env : ProactiveEnv) (uc : UserContext) (fr : Bool)
    (now : Nat) :
    (∃ t e cn ch, method2 env uc fr now =
      (.success t e cn ch, some (ucActive uc now)))
    ∨ method2 env uc fr now = unavailableResult uc now
    ∨ ∃ m, method2 env uc fr now =
        (.failure "Token retrieval failed" m, none) := by
  have h2 := method2GetToken_shape env uc now
  have h3 := method3_shape env uc now
  unfold method2
  split
  · split
    · split
      · exact Or.inr (Or.inr ⟨_, rfl⟩)
      · exact h2
    · exact h2
  · exact h3.imp id Or.inl

theorem runStrategies_shape (env : ProactiveEnv) (uc : UserContext)
    (fr : Bool) (now : Nat) :
    (∃ t e cn ch, runStrategies env uc fr now =
      (.success t e cn ch, some (ucActive uc now)))
    ∨ runStrategies env uc fr now = unavailableResult uc now
    ∨ ∃ m, runStrategies env uc fr now =
        (.failure "Token retrieval failed" m, none) := by
  have h2 := method2_shape env uc fr now
  unfold runStrategies
  split
  · split
    · exact Or.inr (Or.inr ⟨_, rfl⟩)
    · exact h2
    · split
      · exact h2
      · exact Or.inl ⟨_, _, _, _, rfl⟩
  · exact h2

/-! ## Path lemmas for the strategy cascade -/

theorem runStrategies_utc_success (env : ProactiveEnv) (uc : UserContext)
    (fr : Bool) (now : Nat) (tr : TokenResponse)
    (hut : hasUserTokenClient env = true)
    (hso : fr = true → env.utcSignOut = .ret ())
    (htok : env.utcGetToken = .ret (some tr)) (hne : ¬tr.token = "") :
    runStrategies env uc fr now =
      (.success tr.token tr.expiration tr.connectionName tr.channelId,
        some (ucActive uc now)) := by
  cases fr
  · simp [runStrategies, hut, method2, method2GetToken, htok, hne]
  · simp [runStrategies, hut, method2, hso rfl, method2GetToken, htok, hne]

theorem runStrategies_adapter_success (env : ProactiveEnv)
    (uc : UserContext) (fr : Bool) (now : Nat) (tr : TokenResponse)
    (hut : hasUserTokenClient env = false)
    (hg : env.hasGetUserToken = true)
    (htok : env.adapterGetToken = .ret (some tr)) (hne : ¬tr.token = "") :
    runStrategies env uc fr now =
      (.success tr.token tr.expiration tr.connectionName tr.channelId,
        some (ucActive uc now)) := by
  simp [runStrategies, hut, hg, htok, hne]

theorem runStrategies_connector_success (env : ProactiveEnv)
    (uc : UserContext) (fr : Bool) (now : Nat) (tr : TokenResponse)
    (hut : hasUserTokenClient env = false)
    (hg : env.hasGetUserToken = true)
    (hag : env.adapterGetToken = .ret none)
    (hcc : env.hasCreateConnectorClient = true)
    (hcr : env.createConnector = .ret ())
    (hcu : env.connectorHasUserToken = true)
    (hct : env.connectorGetToken = .ret (some tr)) (hne : ¬tr.token = "") :
    runStrategies env uc fr now =
      (.success tr.token tr.expiration env.procConnectionName uc.channelId,
        some (ucActive uc now)) := by
  simp [runStrategies, hut, hg, hag, method2, method3, hcc, hcr, hcu, hct,
    hne]

theorem runStrategies_no_capability (env : ProactiveEnv) (uc : UserContext)
    (fr : Bool) (now : Nat) (hut : hasUserTokenClient env = false)
    (hg : env.hasGetUserToken = false)
    (hcc : env.hasCreateConnectorClient = false) :
    runStrategies env uc fr now = unavailableResult uc now := by
  simp [runStrategies, hut, hg, method2, method3, hcc]

/-! ## C4 — recording and reporting the acquisition outcome -/

/-- C4: with a stored context and an open session, `getTokenForUser`
always resolves a result; a success result is always accompanied by the
context update `tokenStatus = "active"`, `lastTokenRetrieved = now`, and
carries token, expiration, connectionName and channelId through the
`success` constructor; the all-strategies-exhausted failure
(`error = "Token not available"`, `message = "User needs to authenticate
first"` — the spec labels this `Failure("unavailable", "user needs to
authenticate")`) is always accompanied by the context update
`tokenStatus = "unavailable"`; every resolved result is one of those two
or the generic thrown-error failure, which leaves the map unchanged;
and when a strategy yields a token (here: the identity-exchange client,
with a clean sign-out when forced) the success result is returned, while
with no capability present at all the unavailable failure is returned. -/
theorem claim4_outcome_recording (env : ProactiveEnv) (st : CtxMap)
    (u : String) (fr : Bool) (now : Nat) (uc : UserContext) (r : ConvRef)
    (hc : mapGet st u = some uc) (hr : uc.conversationReference = some r)
    (hs : env.sessionOpenOk = true) :
    (∃ res st2, getTokenForUser env st u fr now = (some res, st2))
    ∧ (∀ t e cn ch st2,
        getTokenForUser env st u fr now = (some (.success t e cn ch), st2) →
        st2 = mapSet st u (ucActive uc now)
        ∧ mapGet st2 u = some (ucActive uc now))
    ∧ (∀ st2,
        getTokenForUser env st u fr now =
          (some (.failure "Token not available"
            "User needs to authenticate first"), st2) →
        st2 = mapSet st u (ucUnavailable uc now)
        ∧ mapGet st2 u = some (ucUnavailable uc now))
    ∧ (∀ res st2, getTokenForUser env st u fr now = (some res, st2) →
        (∃ t e cn ch, res = .success t e cn ch)
        ∨ res = .failure "Token not available"
            "User needs to authenticate first"
        ∨ (∃ m, res = .failure "Token retrieval failed" m ∧ st2 = st))
    ∧ (∀ tr : TokenResponse, hasUserTokenClient env = true →
        (fr = true → env.utcSignOut = .ret ()) →
        env.utcGetToken = .ret (some tr) → ¬tr.token = "" →
        getTokenForUser env st u fr now =
          (some (.success tr.token tr.expiration tr.connectionName
            tr.channelId), mapSet st u (ucActive uc now)))
    ∧ (hasUserTokenClient env = false → env.hasGetUserToken = false →
        env.hasCreateConnectorClient = false →
        getTokenForUser env st u fr now =
          (some (.failure "Token not available"
            "User needs to authenticate first"),
            mapSet st u (ucUnavailable uc now))) := by
  have hopen : getTokenForUser env st u fr now =
      (match runStrategies env uc fr now with
        | (res, some uc2) => (some res, mapSet st u uc2)
        | (res, none) => (some res, st)) := by
    simp [getTokenForUser, hc, hr, hs]
  refine ⟨?_, ?_, ?_, ?_, ?_, ?_⟩
  · rcases runStrategies_shape env uc fr now with
      ⟨t0, e0, cn0, ch0, hrs⟩ | hrs | ⟨m0, hrs⟩ <;>
      rw [hrs] at hopen
    · exact ⟨_, _, hopen⟩
    · exact ⟨_, _, hopen⟩
    · exact ⟨_, _, hopen⟩
  · intro t e cn ch st2 heq
    rcases runStrategies_shape env uc fr now with
      ⟨t0, e0, cn0, ch0, hrs⟩ | hrs | ⟨m0, hrs⟩ <;>
      rw [hrs] at hopen <;> rw [hopen] at heq <;>
      simp [unavailableResult] at heq
    · obtain ⟨⟨_, _, _, _⟩, h2⟩ := heq
      exact ⟨h2.symm, h2.symm ▸ mapGet_mapSet_self st u (ucActive uc now)⟩
  · intro st2 heq
    rcases runStrategies_shape env uc fr now with
      ⟨t0, e0, cn0, ch0, hrs⟩ | hrs | ⟨m0, hrs⟩ <;>
      rw [hrs] at hopen <;> rw [hopen] at heq <;>
      simp [unavailableResult] at heq
    · exact ⟨heq.symm,
        heq.symm ▸ mapGet_mapSet_self st u (ucUnavailable uc now)⟩
  · intro res st2 heq
    rcases runStrategies_shape env uc fr now with
      ⟨t0, e0, cn0, ch0, hrs⟩ | hrs | ⟨m0, hrs⟩ <;>
      rw [hrs] at hopen <;> rw [hopen] at heq <;>
      simp [unavailableResult] at heq
    · exact Or.inl ⟨t0, e0, cn0, ch0, heq.1.symm⟩
    · exact Or.inr (Or.inl heq.1.symm)
    · exact Or.inr (Or.inr ⟨m0, heq.1.symm, heq.2.symm⟩)
  · intro tr hut hso htok hne
    rw [runStrategies_utc_success env uc fr now tr hut hso htok hne] at hopen
    exact hopen
  · intro hut hg hcc
    rw [runStrategies_no_capability env uc fr now hut hg hcc] at hopen
    exact hopen

/-- Environment with a working `UserTokenClient` that yields a token. -/
def claim4Env : ProactiveEnv :=
  { baseEnv with
    hasTurnState := true,
    hasUserTokenClientKey := true,
    turnStateClient := true,
    utcGetToken := .ret (some sampleTr) }

/-- Witness for C4 at a concrete input: the identity-exchange client
yields a token, the result is the success carrying its fields and the
context is recorded active. -/
theorem claim4_outcome_recording_witness :
    getTokenForUser claim4Env sampleMap "user1" false 7 =
      (some (.success sampleTr.token sampleTr.expiration
        sampleTr.connectionName sampleTr.channelId),
        mapSet sampleMap "user1" (ucActive sampleCtx 7)) :=
  (claim4_outcome_recording claim4Env sampleMap "user1" false 7 sampleCtx
    sampleRef rfl rfl rfl).2.2.2.2.1 sampleTr rfl
    (fun hh => Bool.noConfusion hh) rfl (by decide)

/-! ## C1 — strategy order -/

/-- Environment for the C1 counterexample: the `UserTokenClient` is
available but yields no token, while both the adapter-level getter and the
connector client are available and would yield tokens. -/
def claim1Env : ProactiveEnv :=
  { baseEnv with
    hasTurnState := true,
    hasUserTokenClientKey := true,
    turnStateClient := true,
    hasGetUserToken := true,
    hasCreateConnectorClient := true,
    connectorHasUserToken := true,
    adapterGetToken := .ret (some sampleTr),
    utcGetToken := .ret none,
    connectorGetToken := .ret (some sampleTr2) }

/-- Counterexample to C1: the `UserTokenClient` is available and yields no
token, the adapter-level getter and the connector client are both
available and would yield tokens, yet `getTokenForUser` returns the
unavailable failure — the later strategies were not attempted, because in
the code they are guarded by `!userTokenClient`, not merely by capability
absence. -/
theorem claim1_counterexample :
    claim1Env.hasGetUserToken = true
    ∧ claim1Env.adapterGetToken = .ret (some sampleTr)
    ∧ sampleTr.token ≠ ""
    ∧ claim1Env.hasCreateConnectorClient = true
    ∧ claim1Env.connectorGetToken = .ret (some sampleTr2)
    ∧ sampleTr2.token ≠ ""
    ∧ claim1Env.utcGetToken = .ret none
    ∧ getTokenForUser claim1Env sampleMap "user1" false 7 =
        (some (.failure "Token not available"
          "User needs to authenticate first"),
          mapSet sampleMap "user1" (ucUnavailable sampleCtx 7)) :=
  ⟨rfl, rfl, by decide, rfl, rfl, by decide, rfl, by decide⟩

/-- C1 (amended): the strategy list is not a pure priority chain — the
adapter-level getter and the connector client are guarded by the absence
of the `UserTokenClient`.  Precisely: (1) when the `UserTokenClient`
capability is present, the run is entirely independent of the other
strategies' capabilities and outcomes (they are never attempted, even if
the client yields no token); (2) when the client is present and yields a
token it is the strategy used; (3) when it is absent, the adapter-level
getter is attempted first and a token from it wins; and (4) when the
available adapter-level getter yields no token, the connector strategy is
still attempted and its token wins. -/
theorem claim1_strategy_order_amended :
    (∀ (env : ProactiveEnv) (uc : UserContext) (fr : Bool) (now : Nat)
        (hg hcc chu : Bool) (so cc : JsCall Unit)
        (a cg : JsCall (Option TokenResponse)) (pc : String),
      hasUserTokenClient env = true →
      runStrategies
        { env with
          hasGetUserToken := hg,
          hasCreateConnectorClient := hcc,
          connectorHasUserToken := chu,
          adapterSignOut := so,
          adapterGetToken := a,
          createConnector := cc,
          connectorGetToken := cg,
          procConnectionName := pc } uc fr now =
        runStrategies env uc fr now)
    ∧ (∀ (env : ProactiveEnv) (uc : UserContext) (fr : Bool) (now : Nat)
        (tr : TokenResponse),
      hasUserTokenClient env = true → (fr = true → env.utcSignOut = .ret ()) →
      env.utcGetToken = .ret (some tr) → ¬tr.token = "" →
      runStrategies env uc fr now =
        (.success tr.token tr.expiration tr.connectionName tr.channelId,
          some (ucActive uc now)))
    ∧ (∀ (env : ProactiveEnv) (uc : UserContext) (fr : Bool) (now : Nat)
        (tr : TokenResponse),
      hasUserTokenClient env = false → env.hasGetUserToken = true →
      env.adapterGetToken = .ret (some tr) → ¬tr.token = "" →
      runStrategies env uc fr now =
        (.success tr.token tr.expiration tr.connectionName tr.channelId,
          some (ucActive uc now)))
    ∧ (∀ (env : ProactiveEnv) (uc : UserContext) (fr : Bool) (now : Nat)
        (tr : TokenResponse),
      hasUserTokenClient env = false → env.hasGetUserToken = true →
      env.adapterGetToken = .ret none →
      env.hasCreateConnectorClient = true → env.createConnector = .ret () →
      env.connectorHasUserToken = true →
      env.connectorGetToken = .ret (some tr) → ¬tr.token = "" →
      runStrategies env uc fr now =
        (.success tr.token tr.expiration env.procConnectionName
          uc.channelId, some (ucActive uc now))) := by
  refine ⟨?_, runStrategies_utc_success, runStrategies_adapter_success,
    runStrategies_connector_success⟩
  intro env uc fr now hg hcc chu so cc a cg pc hut
  obtain ⟨so0, ts0, key0, cl0, hg0, hcc0, chu0, as0, ag0, us0, ug0, cc0,
    cg0, pc0⟩ := env
  simp only [hasUserTokenClient, Bool.and_eq_true] at hut
  obtain ⟨⟨h1, h2⟩, h3⟩ := hut
  subst h1
  subst h2
  subst h3
  rfl

/-- Witness for C1 (amended) at concrete inputs: the environment with a
working identity-exchange client ignores the other strategies, and with no
client the adapter-level getter wins. -/
theorem claim1_strategy_order_amended_witness :
    runStrategies
      { claim4Env with
        hasGetUserToken := true,
        hasCreateConnectorClient := true,
        connectorHasUserToken := true,
        adapterSignOut := .ret (),
        adapterGetToken := .ret (some sampleTr2),
        createConnector := .ret (),
        connectorGetToken := .ret (some sampleTr2),
        procConnectionName := "other" } sampleCtx false 7 =
      runStrategies claim4Env sampleCtx false 7
    ∧ runStrategies { baseEnv with
        hasGetUserToken := true,
        adapterGetToken := .ret (some sampleTr) } sampleCtx false 7 =
      (.success sampleTr.token sampleTr.expiration sampleTr.connectionName
        sampleTr.channelId, some (ucActive sampleCtx 7)) :=
  ⟨claim1_strategy_order_amended.1 claim4Env sampleCtx false 7 true true
      true (.ret ()) (.ret ()) (.ret (some sampleTr2))
      (.ret (some sampleTr2)) "other" rfl,
    claim1_strategy_order_amended.2.2.1
      { baseEnv with
        hasGetUserToken := true,
        adapterGetToken := .ret (some sampleTr) } sampleCtx false 7
      sampleTr rfl rfl rfl (by decide)⟩

/-! ## C5 — remove-before-execute and at-most-once -/

theorem runBg_pending (now : Nat) (tasks : TaskMap)
    (f : String → JsCall Unit) :
    (runBackgroundTasks now tasks f).1 =
      tasks.filter fun p => !(decide (p.2.executeAt ≤ now)) := rfl

theorem runBg_exec_ids (now : Nat) (tasks : TaskMap)
    (f : String → JsCall Unit) :
    (runBackgroundTasks now tasks f).2.map Prod.fst =
      (tasks.filter fun p => decide (p.2.executeAt ≤ now)).map Prod.fst := by
  simp [runBackgroundTasks, List.map_map, Function.comp]

/-- C5: on a tick, the pending set that remains — computed before any
execution starts — is independent of the execution outcomes, as is the
list of executed task ids; every task left pending is not due; with unique
task ids every due task is executed exactly once (the executed id list has
no duplicates); and a task executed on this tick — whether its execution
failed or not — is never in the executed list of the next tick, because it
was removed from the pending set before execution and is never re-inserted. -/
theorem claim5_at_most_once (now now2 : Nat) (tasks : TaskMap)
    (f g h2 : String → JsCall Unit) (tid : String) :
    (runBackgroundTasks now tasks f).1 = (runBackgroundTasks now tasks g).1
    ∧ (runBackgroundTasks now tasks f).2.map Prod.fst =
        (runBackgroundTasks now tasks g).2.map Prod.fst
    ∧ (∀ p ∈ (runBackgroundTasks now tasks f).1, ¬p.2.executeAt ≤ now)
    ∧ ((tasks.map Prod.fst).Nodup →
        ((runBackgroundTasks now tasks f).2.map Prod.fst).Nodup
        ∧ (tid ∈ (runBackgroundTasks now tasks f).2.map Prod.fst →
            tid ∉ (runBackgroundTasks now2
              ((runBackgroundTasks now tasks f).1) h2).2.map Prod.fst)) := by
  refine ⟨rfl, by rw [runBg_exec_ids, runBg_exec_ids], ?_, ?_⟩
  · intro p hp
    rw [runBg_pending] at hp
    have h := List.of_mem_filter hp
    simpa using h
  · intro hnd
    constructor
    · rw [runBg_exec_ids]
      exact ((List.filter_sublist tasks).map Prod.fst).nodup hnd
    · intro hmem hmem2
      rw [runBg_exec_ids] at hmem
      rw [runBg_exec_ids, runBg_pending] at hmem2
      obtain ⟨p1, hp1, hptid1⟩ := List.mem_map.mp hmem
      obtain ⟨p2, hp2, hptid2⟩ := List.mem_map.mp hmem2
      have hq1 := List.of_mem_filter hp1
      have hp2p := List.mem_of_mem_filter hp2
      have hq2 := List.of_mem_filter hp2p
      have hp1t : p1 ∈ tasks := List.mem_of_mem_filter hp1
      have hp2t : p2 ∈ tasks := List.mem_of_mem_filter hp2p
      have hpe : p1 = p2 :=
        List.inj_on_of_nodup_map hnd hp1t hp2t (by rw [hptid1, hptid2])
      rw [hpe] at hq1
      simp at hq1 hq2
      omega

/-- Witness for C5 at a concrete input: one due and one future task, an
execution that fails, a second tick. -/
theorem claim5_at_most_once_witness :
    (runBackgroundTasks 100
        [("t1", ⟨"u", sampleRef, 50, "calendarCheck"⟩),
          ("t2", ⟨"v", sampleRef, 150, "calendarCheck"⟩)]
        (fun _ => .thr "task failed")).2.map Prod.fst = ["t1"]
    ∧ ((runBackgroundTasks 100
        [("t1", ⟨"u", sampleRef, 50, "calendarCheck"⟩),
          ("t2", ⟨"v", sampleRef, 150, "calendarCheck"⟩)]
        (fun _ => .thr "task failed")).2.map Prod.fst).Nodup
    ∧ "t1" ∉ (runBackgroundTasks 200
        ((runBackgroundTasks 100
          [("t1", ⟨"u", sampleRef, 50, "calendarCheck"⟩),
            ("t2", ⟨"v", sampleRef, 150, "calendarCheck"⟩)]
          (fun _ => .thr "task failed")).1)
        (fun _ => .ret ())).2.map Prod.fst := by
  have h := claim5_at_most_once 100 200
    [("t1", ⟨"u", sampleRef, 50, "calendarCheck"⟩),
      ("t2", ⟨"v", sampleRef, 150, "calendarCheck"⟩)]
    (fun _ => .thr "task failed") (fun _ => .thr "task failed")
    (fun _ => .ret ()) "t1"
  have hnd := h.2.2.2 (by decide)
  exact ⟨by decide, hnd.1, hnd.2 (by decide)⟩

/-! ## C9 — task-id generation -/

theorem digitChar_inj_lt10 {a b : Nat} (ha : a < 10) (hb : b < 10)
    (h : Nat.digitChar a = Nat.digitChar b) : a = b := by
  interval_cases a <;> interval_cases b <;> revert h <;> decide

theorem digitChar_ne_underscore {d : Nat} (hd : d < 10) :
    Nat.digitChar d ≠ '_' := by
  interval_cases d <;> decide

theorem natChars_no_underscore (n : Nat) : '_' ∉ natChars n := by
  unfold natChars
  split
  · decide
  · intro hmem
    rw [List.mem_reverse] at hmem
    obtain ⟨d, hd, hchar⟩ := List.mem_map.mp hmem
    exact digitChar_ne_underscore (Nat.digits_lt_base (by norm_num) hd) hchar

theorem map_digitChar_inj :
    ∀ (l1 l2 : List Nat), (∀ d ∈ l1, d < 10) → (∀ d ∈ l2, d < 10) →
      l1.map Nat.digitChar = l2.map Nat.digitChar → l1 = l2
  | [], [], _, _, _ => rfl
  | [], _ :: _, _, _, h => by simp at h
  | _ :: _, [], _, _, h => by simp at h
  | a :: l1, b :: l2, h1, h2, h => by
    simp only [List.map_cons, List.cons.injEq] at h
    have hab := digitChar_inj_lt10 (h1 a (by simp)) (h2 b (by simp)) h.1
    have hrec := map_digitChar_inj l1 l2
      (fun d hd => h1 d (by simp [hd])) (fun d hd => h2 d (by simp [hd])) h.2
    rw [hab, hrec]

theorem natChars_inj {m n : Nat} (h : natChars m = natChars n) : m = n := by
  by_cases hm : m = 0 <;> by_cases hn : n = 0
  · omega
  · exfalso
    subst hm
    unfold natChars at h
    rw [if_pos rfl, if_neg hn] at h
    have h2 : (Nat.digits 10 n).map Nat.digitChar = ['0'] := by
      have := congrArg List.reverse h
      simpa using this.symm
    have h3 : Nat.digits 10 n = [0] :=
      map_digitChar_inj _ [0]
        (fun d hd => Nat.digits_lt_base (by norm_num) hd) (by simp)
        (by rw [h2]; rfl)
    have h4 := Nat.ofDigits_digits 10 n
    rw [h3] at h4
    simp [Nat.ofDigits] at h4
    exact hn h4.symm
  · exfalso
    subst hn
    unfold natChars at h
    rw [if_neg hm, if_pos rfl] at h
    have h2 : (Nat.digits 10 m).map Nat.digitChar = ['0'] := by
      have := congrArg List.reverse h
      simpa using this
    have h3 : Nat.digits 10 m = [0] :=
      map_digitChar_inj _ [0]
        (fun d hd => Nat.digits_lt_base (by norm_num) hd) (by simp)
        (by rw [h2]; rfl)
    have h4 := Nat.ofDigits_digits 10 m
    rw [h3] at h4
    simp [Nat.ofDigits] at h4
    exact hm h4.symm
  · unfold natChars at h
    rw [if_neg hm, if_neg hn] at h
    have h2 := List.reverse_injective h
    have h3 := map_digitChar_inj _ _
      (fun d hd => Nat.digits_lt_base (by norm_num) hd)
      (fun d hd => Nat.digits_lt_base (by norm_num) hd) h2
    have h4 := Nat.ofDigits_digits 10 m
    rw [h3, Nat.ofDigits_digits 10 n] at h4
    exact h4.symm

theorem sep_split :
    ∀ (a1 b1 a2 b2 : List Char), '_' ∉ a1 → '_' ∉ a2 →
      a1 ++ '_' :: b1 = a2 ++ '_' :: b2 → a1 = a2 ∧ b1 = b2
  | [], b1, [], b2, _, _, h => by
    simp only [List.nil_append, List.cons.injEq] at h
    exact ⟨rfl, h.2⟩
  | [], b1, c :: a2, b2, _, h2, h => by
    simp only [List.nil_append, List.cons_append, List.cons.injEq] at h
    exact absurd (by rw [← h.1]; exact List.mem_cons_self '_' a2) h2
  | c :: a1, b1, [], b2, h1, _, h => by
    simp only [List.nil_append, List.cons_append, List.cons.injEq] at h
    exact absurd (by rw [h.1]; exact List.mem_cons_self '_' a1) h1
  | c :: a1, b1, c2 :: a2, b2, h1, h2, h => by
    simp only [List.cons_append, List.cons.injEq] at h
    have hr := sep_split a1 b1 a2 b2
      (fun hm => h1 (List.mem_cons_of_mem c hm))
      (fun hm => h2 (List.mem_cons_of_mem c2 hm)) h.2
    exact ⟨by rw [h.1, hr.1], hr.2⟩

theorem mkTaskId_inj {u1 u2 : String} {t1 t2 : Nat}
    (h : mkTaskId u1 t1 = mkTaskId u2 t2) : u1 = u2 ∧ t1 = t2 := by
  have hd : u1.data ++ '_' :: natChars t1 = u2.data ++ '_' :: natChars t2 := by
    have h0 := congrArg String.data h
    simpa [mkTaskId, natStr, String.data_append] using h0
  have hrev := congrArg List.reverse hd
  simp only [List.reverse_append, List.reverse_cons, List.append_assoc,
    List.singleton_append] at hrev
  obtain ⟨ha, hb⟩ := sep_split _ _ _ _
    (by simpa using natChars_no_underscore t1)
    (by simpa using natChars_no_underscore t2) hrev
  exact ⟨String.ext (List.reverse_injective hb),
    natChars_inj (List.reverse_injective ha)⟩

/-- Counterexample to C9: two distinct `scheduleBackgroundTask` calls for
the same user in the same millisecond (different delays, so different
tasks) generate the same taskId, and the second call silently replaces the
first pending task — the final pending set holds a single task, the one
from the second call. -/
theorem claim9_counterexample :
    scheduleBackgroundTask
        (scheduleBackgroundTask [] "u" sampleRef 100 5) "u" sampleRef 100 9 =
      [(mkTaskId "u" 100,
        { userId := "u", conversationRef := sampleRef, executeAt := 109,
          taskType := "calendarCheck" })]
    ∧ (scheduleBackgroundTask
        (scheduleBackgroundTask [] "u" sampleRef 100 5) "u" sampleRef 100
        9).length = 1 := by
  have h1 : scheduleBackgroundTask
      (scheduleBackgroundTask [] "u" sampleRef 100 5) "u" sampleRef 100 9 =
      [(mkTaskId "u" 100,
        { userId := "u", conversationRef := sampleRef, executeAt := 109,
          taskType := "calendarCheck" })] := by
    simp [scheduleBackgroundTask, mapSet]
  exact ⟨h1, by rw [h1]; rfl⟩

/-- C9 (amended): the generated taskIds are unique exactly up to the
`(userId, creationTimestamp)` pair — two schedule calls that differ in
userId or in creation millisecond always get distinct taskIds (the
decimal timestamp rendering contains no underscore, so the id determines
both components), and scheduling never touches any pending task stored
under a different taskId; only two calls for the same user in the same
millisecond collide, and then the later call replaces the earlier task. -/
theorem claim9_taskid_unique_amended :
    (∀ (u1 u2 : String) (t1 t2 : Nat), ¬(u1 = u2 ∧ t1 = t2) →
      mkTaskId u1 t1 ≠ mkTaskId u2 t2)
    ∧ (∀ (tasks : TaskMap) (u : String) (r : ConvRef) (now d : Nat)
        (tid : String), tid ≠ mkTaskId u now →
      mapGet (scheduleBackgroundTask tasks u r now d) tid = mapGet tasks tid) := by
  constructor
  · intro u1 u2 t1 t2 hne h
    exact hne (mkTaskId_inj h)
  · intro tasks u r now d tid hne
    exact mapGet_mapSet_ne tasks (mkTaskId u now) tid _ hne

/-- Witness for C9 (amended) at concrete inputs: different users at the
same time, the same user at different times, and preservation of an
unrelated pending task. -/
theorem claim9_taskid_unique_amended_witness :
    mkTaskId "alice" 100 ≠ mkTaskId "bob" 100
    ∧ mkTaskId "alice" 100 ≠ mkTaskId "alice" 101
    ∧ mapGet (scheduleBackgroundTask
        [(mkTaskId "bob" 100, ⟨"w", sampleRef, 3, "calendarCheck"⟩)]
        "alice" sampleRef 100 5) (mkTaskId "bob" 100) =
      some ⟨"w", sampleRef, 3, "calendarCheck"⟩ := by
  refine ⟨claim9_taskid_unique_amended.1 "alice" "bob" 100 100 ?_,
    claim9_taskid_unique_amended.1 "alice" "alice" 100 101 ?_, ?_⟩
  · intro hc
    exact absurd hc.1 (by decide)
  · intro hc
    exact absurd hc.2 (by decide)
  · rw [claim9_taskid_unique_amended.2
      [(mkTaskId "bob" 100, ⟨"w", sampleRef, 3, "calendarCheck"⟩)]
      "alice" sampleRef 100 5 (mkTaskId "bob" 100)
      (claim9_taskid_unique_amended.1 "bob" "alice" 100 100
        (fun hc => absurd hc.1 (by decide)))]
    simp [mapGet]

/-! ## C7 — createdAt is written once, lastUpdated on every call -/

theorem storeUserContext_fromId_some (st : CtxMap) (a : Activity)
    (now : Nat) (u : String) (hf : a.fromId = some u) :
    storeUserContext st a now = mapSet st u
      { userId := u,
        conversationReference := some (getConversationReference a),
        userName := a.fromName.getD "Unknown",
        channelId := a.channelId, serviceUrl := a.serviceUrl,
        tenantId := a.tenantId, conversationId := a.conversationId,
        aadObjectId := a.aadObjectId, ssoEnabled := true,
        lastUpdated := now,
        createdAt :=
          match mapGet st u with
          | some old => old.createdAt
          | none => now,
        tokenStatus := none, lastTokenRetrieved := none,
        lastTokenAttempt := none } := by
  simp [storeUserContext, hf]

theorem storeUserContext_step (st : CtxMap) (a : Activity) (now : Nat)
    (u : String) (hf : a.fromId = some u) :
    ∃ c2, mapGet (storeUserContext st a now) u = some c2
      ∧ c2.lastUpdated = now
      ∧ c2.createdAt =
          (match mapGet st u with
            | some old => old.createdAt
            | none => now) := by
  rw [storeUserContext_fromId_some st a now u hf]
  exact ⟨_, mapGet_mapSet_self st u _, rfl, rfl⟩

theorem storeUserContext_keeps (st : CtxMap) (a : Activity) (now : Nat)
    (u : String) (c : UserContext) (h : mapGet st u = some c) :
    ∃ c2, mapGet (storeUserContext st a now) u = some c2
      ∧ c2.createdAt = c.createdAt := by
  cases hf : a.fromId with
  | none => exact ⟨c, by simp [storeUserContext, hf, h], rfl⟩
  | some uid =>
    by_cases hu : uid = u
    · subst hu
      obtain ⟨c2, hg, _, hcr⟩ := storeUserContext_step st a now uid hf
      refine ⟨c2, hg, ?_⟩
      rw [hcr, h]
    · rw [storeUserContext_fromId_some st a now uid hf,
        mapGet_mapSet_ne st uid u _ (fun e => hu e.symm)]
      exact ⟨c, h, rfl⟩

theorem storeSeq_keeps :
    ∀ (calls : List (Activity × Nat)) (st : CtxMap) (u : String)
      (c : UserContext), mapGet st u = some c →
      ∃ c2, mapGet (storeSeq st calls) u = some c2
        ∧ c2.createdAt = c.createdAt
  | [], _, _, c, h => ⟨c, h, rfl⟩
  | p :: rest, st, u, c, h => by
    obtain ⟨c1, hg1, hc1⟩ := storeUserContext_keeps st p.1 p.2 u c h
    obtain ⟨c2, hg2, hc2⟩ :=
      storeSeq_keeps rest (storeUserContext st p.1 p.2) u c1 hg1
    exact ⟨c2, hg2, by rw [hc2, hc1]⟩

theorem storeSeq_last :
    ∀ (rest : List (Activity × Nat)) (p : Activity × Nat) (st : CtxMap)
      (u : String), (∀ q ∈ p :: rest, q.1.fromId = some u) →
      ∃ c2, mapGet (storeSeq st (p :: rest)) u = some c2
        ∧ c2.lastUpdated = ((p :: rest).getLast (List.cons_ne_nil p rest)).2
  | [], p, st, u, hall => by
    obtain ⟨c2, hg, hl, _⟩ :=
      storeUserContext_step st p.1 p.2 u (hall p (by simp))
    exact ⟨c2, hg, by simpa using hl⟩
  | q :: rest, p, st, u, hall => by
    obtain ⟨c2, hg, hl⟩ := storeSeq_last rest q (storeUserContext st p.1 p.2)
      u (fun r hr => hall r (List.mem_cons_of_mem p hr))
    refine ⟨c2, hg, ?_⟩
    rw [hl, List.getLast_cons (List.cons_ne_nil q rest)]

/-! Mongo-side helper lemmas -/

theorem mergeList_get_notmem :
    ∀ (fields : List (String × BVal)) (d : Doc) (k : String),
      k ∉ fields.map Prod.fst →
      mapGet (objMergeList d fields) k = mapGet d k
  | [], _, _, _ => rfl
  | (k1, v1) :: rest, d, k, h => by
    simp only [List.map_cons, List.mem_cons, not_or] at h
    have step : objMergeList d ((k1, v1) :: rest) =
        objMergeList (mapSet d k1 v1) rest := rfl
    rw [step, mergeList_get_notmem rest (mapSet d k1 v1) k h.2,
      mapGet_mapSet_ne d k1 k v1 h.1]

theorem mergeList_get_mem :
    ∀ (fields : List (String × BVal)) (d : Doc) (k : String) (v : BVal),
      (fields.map Prod.fst).Nodup → mapGet fields k = some v →
      mapGet (objMergeList d fields) k = some v
  | [], _, _, _, _, h => by simp [mapGet] at h
  | (k1, v1) :: rest, d, k, v, hnd, h => by
    simp only [List.map_cons, List.nodup_cons] at hnd
    have step : objMergeList d ((k1, v1) :: rest) =
        objMergeList (mapSet d k1 v1) rest := rfl
    by_cases hk : k1 = k
    · subst hk
      have hv : v = v1 := by
        simp [mapGet] at h
        exact h.symm
      subst hv
      rw [step, mergeList_get_notmem rest (mapSet d k1 v) k1 hnd.1]
      exact mapGet_mapSet_self d k1 v
    · have h2 : mapGet rest k = some v := by
        simpa [mapGet, hk] using h
      rw [step]
      exact mergeList_get_mem rest (mapSet d k1 v1) k v hnd.2 h2

theorem nodupKeys_objMergeList :
    ∀ (fields : List (String × BVal)) (d : Doc),
      (d.map Prod.fst).Nodup → ((objMergeList d fields).map Prod.fst).Nodup
  | [], _, h => h
  | (k1, v1) :: rest, d, h =>
    nodupKeys_objMergeList rest (mapSet d k1 v1) (nodupKeys_mapSet d k1 v1 h)

theorem contextData_nodupKeys (u : String) (ref : ConvRef)
    (ad : List (String × BVal)) (now : Nat) :
    ((contextData u ref ad now).map Prod.fst).Nodup := by
  unfold contextData
  apply nodupKeys_mapSet
  apply nodupKeys_objMergeList
  simp [mapSet]

theorem contextData_get_lastUpdated (u : String) (ref : ConvRef)
    (ad : List (String × BVal)) (now : Nat) :
    mapGet (contextData u ref ad now) "lastUpdated" = some (.vNat now) :=
  mapGet_mapSet_self _ _ _

theorem contextData_get_createdAt (u : String) (ref : ConvRef)
    (ad : List (String × BVal)) (now : Nat)
    (had : "createdAt" ∉ ad.map Prod.fst) :
    mapGet (contextData u ref ad now) "createdAt" = none := by
  unfold contextData
  rw [mapGet_mapSet_ne _ _ _ _ (by decide),
    mergeList_get_notmem ad _ _ had,
    mapGet_mapSet_ne _ _ _ _ (by decide),
    mapGet_mapSet_ne _ _ _ _ (by decide)]
  rfl

theorem mongoStore_step (coll : Coll) (u : String) (ref : ConvRef)
    (ad : List (String × BVal)) (now : Nat)
    (had : "createdAt" ∉ ad.map Prod.fst) :
    ∃ d2, mapGet (mongoStoreUserContext coll u ref ad now) u = some d2
      ∧ mapGet d2 "lastUpdated" = some (.vNat now)
      ∧ mapGet d2 "createdAt" =
          (match mapGet coll u with
            | some d => mapGet d "createdAt"
            | none => some (.vNat now)) := by
  cases h : mapGet coll u with
  | none =>
    refine ⟨mapSet (contextData u ref ad now) "createdAt" (.vNat now),
      ?_, ?_, ?_⟩
    · unfold mongoStoreUserContext
      rw [h]
      exact mapGet_mapSet_self coll u _
    · rw [mapGet_mapSet_ne _ _ _ _ (by decide)]
      exact contextData_get_lastUpdated u ref ad now
    · rw [mapGet_mapSet_self]
  | some d =>
    refine ⟨objMergeList d (contextData u ref ad now), ?_, ?_, ?_⟩
    · unfold mongoStoreUserContext
      rw [h]
      exact mapGet_mapSet_self coll u _
    · exact mergeList_get_mem _ d _ _ (contextData_nodupKeys u ref ad now)
        (contextData_get_lastUpdated u ref ad now)
    · rw [mergeList_get_notmem _ d _
        ((mapGet_eq_none_iff _ _).mp (contextData_get_createdAt u ref ad now had))]

theorem mongoSeq_keeps :
    ∀ (calls : List (ConvRef × List (String × BVal) × Nat)) (coll : Coll)
      (u : String) (d : Doc) (v : BVal), mapGet coll u = some d →
      mapGet d "createdAt" = some v →
      (∀ q ∈ calls, "createdAt" ∉ q.2.1.map Prod.fst) →
      ∃ d2, mapGet (mongoStoreSeq coll u calls) u = some d2
        ∧ mapGet d2 "createdAt" = some v
  | [], _, _, d, _, h, hv, _ => ⟨d, h, hv⟩
  | p :: rest, coll, u, d, v, h, hv, hall => by
    obtain ⟨d1, hg1, _, hc1⟩ := mongoStore_step coll u p.1 p.2.1 p.2.2
      (hall p (by simp))
    rw [h] at hc1
    obtain ⟨d2, hg2, hc2⟩ := mongoSeq_keeps rest
      (mongoStoreUserContext coll u p.1 p.2.1 p.2.2) u d1 v hg1
      (by rw [hc1]; exact hv) (fun q hq => hall q (List.mem_cons_of_mem p hq))
    exact ⟨d2, hg2, hc2⟩

theorem mongoSeq_last :
    ∀ (rest : List (ConvRef × List (String × BVal) × Nat))
      (p : ConvRef × List (String × BVal) × Nat) (coll : Coll) (u : String),
      (∀ q ∈ p :: rest, "createdAt" ∉ q.2.1.map Prod.fst) →
      ∃ d2, mapGet (mongoStoreSeq coll u (p :: rest)) u = some d2
        ∧ mapGet d2 "lastUpdated" =
            some (.vNat ((p :: rest).getLast (List.cons_ne_nil p rest)).2.2)
  | [], p, coll, u, hall => by
    obtain ⟨d2, hg, hl, _⟩ := mongoStore_step coll u p.1 p.2.1 p.2.2
      (hall p (by simp))
    exact ⟨d2, hg, by simpa using hl⟩
  | q :: rest, p, coll, u, hall => by
    obtain ⟨d2, hg, hl⟩ := mongoSeq_last rest q
      (mongoStoreUserContext coll u p.1 p.2.1 p.2.2) u
      (fun r hr => hall r (List.mem_cons_of_mem p hr))
    refine ⟨d2, hg, ?_⟩
    rw [hl, List.getLast_cons (List.cons_ne_nil q rest)]

/-- C7: `createdAt` is written by the first `record` call for a user and
never overwritten afterwards, while `lastUpdated` is refreshed by every
call — both for the in-memory `userContextMap` (`storeUserContext` of the
bot, folded over any non-empty sequence of turns from the same user) and
for the MongoDB-backed store (`ContextStorage.storeUserContext`, folded
over any non-empty sequence of calls whose `additionalData` does not
itself smuggle a `createdAt` field — `record(turn)` never does). -/
theorem claim7_createdAt_invariant :
    (∀ (st : CtxMap) (a : Activity) (now : Nat) (u : String),
      a.fromId = some u →
      ∃ c2, mapGet (storeUserContext st a now) u = some c2
        ∧ c2.lastUpdated = now)
    ∧ (∀ (st : CtxMap) (u : String) (p : Activity × Nat)
        (rest : List (Activity × Nat)),
      mapGet st u = none → (∀ q ∈ p :: rest, q.1.fromId = some u) →
      ∃ c2, mapGet (storeSeq st (p :: rest)) u = some c2
        ∧ c2.createdAt = p.2
        ∧ c2.lastUpdated = ((p :: rest).getLast (List.cons_ne_nil p rest)).2)
    ∧ (∀ (coll : Coll) (u : String) (ref : ConvRef)
        (ad : List (String × BVal)) (now : Nat),
      "createdAt" ∉ ad.map Prod.fst →
      ∃ d2, mapGet (mongoStoreUserContext coll u ref ad now) u = some d2
        ∧ mapGet d2 "lastUpdated" = some (.vNat now))
    ∧ (∀ (coll : Coll) (u : String)
        (p : ConvRef × List (String × BVal) × Nat)
        (rest : List (ConvRef × List (String × BVal) × Nat)),
      mapGet coll u = none →
      (∀ q ∈ p :: rest, "createdAt" ∉ q.2.1.map Prod.fst) →
      ∃ d2, mapGet (mongoStoreSeq coll u (p :: rest)) u = some d2
        ∧ mapGet d2 "createdAt" = some (.vNat p.2.2)
        ∧ mapGet d2 "lastUpdated" =
            some (.vNat ((p :: rest).getLast
              (List.cons_ne_nil p rest)).2.2)) := by
  refine ⟨?_, ?_, ?_, ?_⟩
  · intro st a now u hf
    obtain ⟨c2, hg, hl, _⟩ := storeUserContext_step st a now u hf
    exact ⟨c2, hg, hl⟩
  · intro st u p rest h0 hall
    obtain ⟨c1, hg1, _, hcr1⟩ :=
      storeUserContext_step st p.1 p.2 u (hall p (by simp))
    have hcr1b : c1.createdAt = p.2 := by rw [hcr1, h0]
    obtain ⟨c2, hg2, hc2⟩ :=
      storeSeq_keeps rest (storeUserContext st p.1 p.2) u c1 hg1
    obtain ⟨c3, hg3, hl3⟩ := storeSeq_last rest p st u hall
    have he : storeSeq st (p :: rest) =
        storeSeq (storeUserContext st p.1 p.2) rest := rfl
    rw [he] at hg3
    have hc23 : c2 = c3 := by
      have := hg2.symm.trans hg3
      exact Option.some.inj this
    refine ⟨c3, by rw [← he] at hg3; exact hg3, ?_, hl3⟩
    rw [← hc23, hc2, hcr1b]
  · intro coll u ref ad now had
    obtain ⟨d2, hg, hl, _⟩ := mongoStore_step coll u ref ad now had
    exact ⟨d2, hg, hl⟩
  · intro coll u p rest h0 hall
    obtain ⟨d1, hg1, _, hc1⟩ :=
      mongoStore_step coll u p.1 p.2.1 p.2.2 (hall p (by simp))
    rw [h0] at hc1
    obtain ⟨d2, hg2, hc2⟩ := mongoSeq_keeps rest
      (mongoStoreUserContext coll u p.1 p.2.1 p.2.2) u d1 (.vNat p.2.2) hg1
      (by rw [hc1]) (fun q hq => hall q (List.mem_cons_of_mem p hq))
    obtain ⟨d3, hg3, hl3⟩ := mongoSeq_last rest p coll u hall
    have he : mongoStoreSeq coll u (p :: rest) =
        mongoStoreSeq (mongoStoreUserContext coll u p.1 p.2.1 p.2.2) u
          rest := rfl
    rw [he] at hg3
    have hd23 : d2 = d3 := Option.some.inj (hg2.symm.trans hg3)
    refine ⟨d3, by rw [← he] at hg3; exact hg3, ?_, hl3⟩
    rw [← hd23, hc2]

/-- Witness for C7 at concrete inputs: two turns from the same user, and
two Mongo store calls. -/
theorem claim7_createdAt_invariant_witness :
    (∃ c2, mapGet (storeSeq []
        [(⟨some "u", some "Ada", "msteams", "https://s", none, "cv", none⟩, 3),
          (⟨some "u", some "Ada", "msteams", "https://s", none, "cv", none⟩,
            8)]) "u" = some c2
      ∧ c2.createdAt = 3 ∧ c2.lastUpdated = 8)
    ∧ (∃ d2, mapGet (mongoStoreSeq [] "u"
        [(sampleRef, [], 5), (sampleRef, [], 9)]) "u" = some d2
      ∧ mapGet d2 "createdAt" = some (.vNat 5)
      ∧ mapGet d2 "lastUpdated" = some (.vNat 9)) := by
  constructor
  · have h := claim7_createdAt_invariant.2.1 []
      "u" (⟨some "u", some "Ada", "msteams", "https://s", none, "cv", none⟩, 3)
      [(⟨some "u", some "Ada", "msteams", "https://s", none, "cv", none⟩, 8)]
      rfl (by intro q hq; simp at hq; rcases hq with h | h <;> simp [h])
    simpa using h
  · have h := claim7_createdAt_invariant.2.2.2 [] "u"
      (sampleRef, [], 5) [(sampleRef, [], 9)] rfl
      (by intro q hq; simp at hq; rcases hq with h | h <;> simp [h])
    simpa using h

/-! ## C8 — batch token endpoint -/

theorem mkBatchEntry_userId (u2 : String) (s : Settled) :
    (mkBatchEntry u2 s).userId = u2 := by
  cases s with
  | fulfilled v => cases v <;> rfl
  | rejected m => rfl

theorem settleAll_index :
    ∀ (ids : List String) (f : String → Option Settled)
      (l : List (String × Settled)), settleAll ids f = some l →
      l.length = ids.length
      ∧ (∀ (i : Nat) (u2 : String), ids[i]? = some u2 →
          ∃ s, f u2 = some s ∧ l[i]? = some (u2, s))
  | [], f, l, h => by
    simp [settleAll] at h
    subst h
    exact ⟨rfl, by intro i u2 hi; simp at hi⟩
  | u :: rest, f, l, h => by
    simp only [settleAll] at h
    cases hf : f u with
    | none =>
      cases hsr : settleAll rest f <;> rw [hf, hsr] at h <;> simp at h
    | some s =>
      cases hsr : settleAll rest f with
      | none =>
        rw [hf, hsr] at h
        simp at h
      | some lr =>
        rw [hf, hsr] at h
        simp at h
        subst h
        obtain ⟨hlen, hidx⟩ := settleAll_index rest f lr hsr
        refine ⟨by simp [hlen], ?_⟩
        intro i u2 hi
        cases i with
        | zero =>
          simp at hi
          subst hi
          exact ⟨s, hf, by simp⟩
        | succ n =>
          rw [List.getElem?_cons_succ] at hi ⊢
          exact hidx n u2 hi

theorem settleAll_settles :
    ∀ (ids : List String) (f : String → Option Settled),
      (∀ v ∈ ids, f v ≠ none) → ∃ l, settleAll ids f = some l
  | [], _, _ => ⟨[], rfl⟩
  | u :: rest, f, hall => by
    obtain ⟨l, hl⟩ := settleAll_settles rest f
      (fun v hv => hall v (List.mem_cons_of_mem u hv))
    cases hf : f u with
    | none => exact absurd hf (hall u (by simp))
    | some s => exact ⟨(u, s) :: l, by simp [settleAll, hf, hl]⟩

theorem settleAll_hangs :
    ∀ (ids : List String) (f : String → Option Settled) (u : String),
      u ∈ ids → f u = none → settleAll ids f = none
  | [], _, _, hu, _ => absurd hu (by simp)
  | v :: rest, f, u, hu, hf => by
    rcases List.mem_cons.mp hu with he | hm
    · subst he
      simp [settleAll, hf]
    · cases hfv : f v with
      | none => simp [settleAll, hfv]
      | some s => simp [settleAll, hfv, settleAll_hangs rest f u hm hf]

theorem batchHandler_some (ids : List String) (f : String → Option Settled)
    (l : List (String × Settled)) (h0 : ¬ids.length = 0)
    (h50 : ¬50 < ids.length) (hl : settleAll ids f = some l) :
    batchHandler (some ids) f =
      some (.ok
        (0 < ((l.map fun p => mkBatchEntry p.1 p.2).filter
          fun e => e.success).length)
        ids.length
        ((l.map fun p => mkBatchEntry p.1 p.2).filter
          fun e => e.success).length
        (ids.length - ((l.map fun p => mkBatchEntry p.1 p.2).filter
          fun e => e.success).length)
        (l.map fun p => mkBatchEntry p.1 p.2)) := by
  simp [batchHandler, h0, h50, hl]

theorem batchHandler_results (ids : List String)
    (g : String → Option Settled) (r2 : BatchResponse)
    (h0 : ¬ids.length = 0) (h50 : ¬50 < ids.length)
    (h : batchHandler (some ids) g = some r2) :
    ∃ lg, settleAll ids g = some lg
      ∧ batchResults r2 = lg.map fun p => mkBatchEntry p.1 p.2 := by
  simp only [batchHandler, if_neg h0, if_neg h50] at h
  cases hsg : settleAll ids g with
  | none =>
    rw [hsg] at h
    simp at h
  | some lg =>
    rw [hsg] at h
    refine ⟨lg, rfl, ?_⟩
    rw [← Option.some.inj h]
    rfl

/-- Counterexample to C8: a two-user batch (N = 2, within 1..50) in which
the first user's acquisition promise never settles — exactly the broker's
behaviour when that user has a stored conversation reference but the
proactive session open fails — makes `Promise.allSettled` and hence the
whole handler produce no response at all: no results array of length N is
returned, and one user's acquisition failure aborted the processing of the
other user. -/
theorem claim8_counterexample :
    acquireSettled { baseEnv with sessionOpenOk := false } sampleMap 7
        "user1" = none
    ∧ acquireSettled { baseEnv with sessionOpenOk := false } sampleMap 7
        "ghost" = some (.fulfilled (.failure "No conversation context found"
          "User needs to interact with the bot first"))
    ∧ (["user1", "ghost"] : List String).length = 2
    ∧ batchHandler (some ["user1", "ghost"])
        (acquireSettled { baseEnv with sessionOpenOk := false } sampleMap 7)
        = none :=
  ⟨rfl, by decide, rfl, by decide⟩

/-- C8 (amended): when every per-user acquisition promise settles, the
batch handler answers 200 with a results array of exactly length `N`
(`1 <= N <= 50`) preserving input order, `successCount + failureCount = N`,
and one user's settled outcome — failure or thrown rejection — never
influences another user's entry; but if any single acquisition never
settles (the broker's session-open hang), `Promise.allSettled` never
resolves and the handler sends no response at all, aborting every user's
processing; an empty array, a non-array body, or more than 50 entries is
rejected with 400 before any acquisition is consulted, so those responses
are independent of the outcome assignment. -/
theorem claim8_batch_amended (ids : List String)
    (f g : String → Option Settled) (u : String) :
    (1 ≤ ids.length → ids.length ≤ 50 → (∀ v ∈ ids, f v ≠ none) →
      ∃ r, batchHandler (some ids) f = some r
        ∧ (batchResults r).length = ids.length
        ∧ (∀ i : Nat, ((batchResults r)[i]?).map
            (fun e => e.userId) = ids[i]?)
        ∧ batchSuccessCount r + batchFailureCount r = ids.length
        ∧ ((∀ v, v ≠ u → f v = g v) →
            ∀ r2, batchHandler (some ids) g = some r2 →
            ∀ i : Nat, ids[i]? ≠ some u →
            (batchResults r)[i]? = (batchResults r2)[i]?))
    ∧ (ids.length ≤ 50 → u ∈ ids → f u = none →
        batchHandler (some ids) f = none)
    ∧ (ids.length = 0 →
        batchHandler (some ids) f =
          some (.badRequest "userIds array is required")
        ∧ batchHandler (some ids) f = batchHandler (some ids) g)
    ∧ (50 < ids.length →
        batchHandler (some ids) f =
          some (.badRequest "Maximum 50 users per batch request")
        ∧ batchHandler (some ids) f = batchHandler (some ids) g)
    ∧ batchHandler none f =
        some (.badRequest "userIds array is required") := by
  refine ⟨?_, ?_, ?_, ?_, rfl⟩
  · intro h1 h50 hset
    have h0 : ¬ids.length = 0 := by omega
    have h50b : ¬50 < ids.length := by omega
    obtain ⟨l, hl⟩ := settleAll_settles ids f hset
    obtain ⟨hlen, hidx⟩ := settleAll_index ids f l hl
    refine ⟨_, batchHandler_some ids f l h0 h50b hl, ?_, ?_, ?_, ?_⟩
    · show (l.map fun p => mkBatchEntry p.1 p.2).length = ids.length
      simp [hlen]
    · intro i
      show ((l.map fun p => mkBatchEntry p.1 p.2)[i]?).map
        (fun e => e.userId) = ids[i]?
      rw [List.getElem?_map]
      cases hi : ids[i]? with
      | none =>
        have hln : l[i]? = none := by
          rw [List.getElem?_eq_none_iff] at hi ⊢
          omega
        rw [hln]
        rfl
      | some u2 =>
        obtain ⟨s, _, hls⟩ := hidx i u2 hi
        rw [hls]
        simp [mkBatchEntry_userId]
    · show ((l.map fun p => mkBatchEntry p.1 p.2).filter
          fun e => e.success).length
        + (ids.length - ((l.map fun p => mkBatchEntry p.1 p.2).filter
          fun e => e.success).length) = ids.length
      have hle : ((l.map fun p => mkBatchEntry p.1 p.2).filter
          fun e => e.success).length ≤ ids.length := by
        calc ((l.map fun p => mkBatchEntry p.1 p.2).filter
              fun e => e.success).length
            ≤ (l.map fun p => mkBatchEntry p.1 p.2).length :=
              List.length_filter_le _ _
          _ = l.length := List.length_map _ _
          _ = ids.length := hlen
      omega
    · intro hfg r2 hg2 i hne
      obtain ⟨lg, hsg, hres2⟩ := batchHandler_results ids g r2 h0 h50b hg2
      obtain ⟨hleng, hidxg⟩ := settleAll_index ids g lg hsg
      show (l.map fun p => mkBatchEntry p.1 p.2)[i]? = (batchResults r2)[i]?
      rw [hres2, List.getElem?_map, List.getElem?_map]
      cases hi : ids[i]? with
      | none =>
        have hln : l[i]? = none := by
          rw [List.getElem?_eq_none_iff] at hi ⊢
          omega
        have hlgn : lg[i]? = none := by
          rw [List.getElem?_eq_none_iff] at hi ⊢
          omega
        rw [hln, hlgn]
      | some v =>
        have hvu : v ≠ u := by
          intro he
          rw [hi, he] at hne
          exact hne rfl
        obtain ⟨s1, hf1, hl1⟩ := hidx i v hi
        obtain ⟨s2, hg1, hl2⟩ := hidxg i v hi
        have hs12 : s1 = s2 := by
          rw [hfg v hvu] at hf1
          exact Option.some.inj (hf1.symm.trans hg1)
        rw [hl1, hl2, hs12]
  · intro h50 hu hf
    have h0 : ¬ids.length = 0 := by
      have := List.length_pos_of_mem hu
      omega
    have h50b : ¬50 < ids.length := by omega
    simp [batchHandler, h0, h50b, settleAll_hangs ids f u hu hf]
  · intro h0
    constructor <;> simp [batchHandler, h0]
  · intro h50
    have h0 : ¬ids.length = 0 := by omega
    constructor <;> simp [batchHandler, h0, h50]

/-- A concrete settled-outcome assignment for the C8 witness: a success, a
failure and a thrown rejection, every promise settling. -/
def claim8Outcomes : String → Option Settled := fun v =>
  if v = "a" then some (.fulfilled (.success "tok" "exp" "conn" "chan"))
  else if v = "b" then some (.fulfilled (.failure "err" "msg"))
  else some (.rejected "boom")

/-- The same assignment except that user `"c"`'s promise never settles. -/
def claim8Hang : String → Option Settled := fun v =>
  if v = "c" then none else claim8Outcomes v

/-- Witness for C8 (amended) at concrete inputs: three settling users give
a full results array with matching counts, one hanging user gives no
response, and an empty array gives the 400. -/
theorem claim8_batch_amended_witness :
    (∃ r, batchHandler (some ["a", "b", "c"]) claim8Outcomes = some r
      ∧ (batchResults r).length = 3
      ∧ batchSuccessCount r + batchFailureCount r = 3)
    ∧ batchHandler (some ["a", "b", "c"]) claim8Hang = none
    ∧ batchHandler (some ([] : List String)) claim8Outcomes =
        some (.badRequest "userIds array is required") := by
  have hm := (claim8_batch_amended ["a", "b", "c"] claim8Outcomes
    claim8Outcomes "a").1 (by decide) (by decide) (by decide)
  have hh := (claim8_batch_amended ["a", "b", "c"] claim8Hang claim8Hang
    "c").2.1 (by decide) (by decide) (by decide)
  have hz := (claim8_batch_amended [] claim8Outcomes claim8Outcomes
    "a").2.2.1 rfl
  obtain ⟨r, hr, hlen, _, hcnt, _⟩ := hm
  exact ⟨⟨r, hr, hlen, hcnt⟩, hh, hz.1⟩

end OboBot
